import Mathlib

/-!
Shallow embedding of the job-recommendation core (embedding acquisition and
ranking pipeline) and proofs about its specification claims.

Modelling conventions:
* Python floats are modelled as exact numbers: vector entries are rationals,
  cosine-similarity scores are reals (the norm needs a square root).
* Fallible Python code (raise/except) is modelled with `Except`.
* External collaborators (the OpenAI client, scraper, parser, ...) are oracle
  parameters, matching the repository's dependency-injection design.
-/

/-! ### Python string primitives

`str.strip()` and `str.split()` are modelled character-by-character so that
they compute by kernel reduction. -/

/-- Python `s.strip()`: remove leading and trailing whitespace. -/
def pyStrip (s : String) : String :=
  ⟨((s.data.dropWhile Char.isWhitespace).reverse.dropWhile Char.isWhitespace).reverse⟩

/-- Helper for `pyWords`: scan the characters, accumulating the current word
(in reverse) and emitting it when a whitespace run begins. -/
def pyWordsAux : List Char → List Char → List String
  | [], acc => if acc = [] then [] else [⟨acc.reverse⟩]
  | c :: cs, acc =>
    if c.isWhitespace then
      if acc = [] then pyWordsAux cs [] else ⟨acc.reverse⟩ :: pyWordsAux cs []
    else pyWordsAux cs (c :: acc)

/-- Python `s.split()` with no separator: whitespace-delimited words, with no
empty pieces. -/
def pyWords (s : String) : List String := pyWordsAux s.data []

/-! ### Similarity engine (src/similarity_calculator.py) -/

/-- Errors raised in the ranking path (`ValueError`s in the source, with the
lengths that appear in the message). -/
inductive SimErr : Type where
  | dimensionMismatch (n m : ℕ)
  | emptyReference
  | lengthMismatch (n m : ℕ)
  deriving DecidableEq, Repr

/-- Dot product of two rational vectors (`np.dot` on equal-length inputs). -/
def dotQ (a b : List ℚ) : ℚ := (List.zipWith (· * ·) a b).sum

/-- Euclidean norm of a vector, as used by `scipy.spatial.distance.cosine`. -/
noncomputable def normR (v : List ℚ) : ℝ := Real.sqrt ((dotQ v v : ℚ) : ℝ)

/-- `scipy.spatial.distance.cosine u v = 1 - dot u v / (‖u‖ * ‖v‖)`. -/
noncomputable def cosineDistR (u v : List ℚ) : ℝ :=
  1 - ((dotQ u v : ℚ) : ℝ) / (normR u * normR v)

/-- The clamp on line 43 of similarity_calculator.py: `max(0.0, min(1.0, s))`. -/
noncomputable def clamp01 (x : ℝ) : ℝ := max 0 (min 1 x)

/-- `np.allclose(v, 0)` with numpy defaults: every entry within the absolute
tolerance `1e-8` of zero. -/
def allcloseZero (v : List ℚ) : Prop := ∀ x ∈ v, |x| ≤ 1 / 10 ^ 8

instance : DecidablePred allcloseZero := fun v =>
  List.decidableBAll (fun x => |x| ≤ 1 / 10 ^ 8) v

/-- `SimilarityCalculator.calculate_similarity` (lines 21-49): empty-vector
short circuit, dimension check, numerical-zero check, then the clamped cosine
similarity `1 - cosine(v1, v2)`. -/
noncomputable def calculate_similarity (vector1 vector2 : List ℚ) : Except SimErr ℝ :=
  if vector1 = [] ∨ vector2 = [] then .ok 0
  else if vector1.length ≠ vector2.length then
    .error (.dimensionMismatch vector1.length vector2.length)
  else if allcloseZero vector1 ∨ allcloseZero vector2 then .ok 0
  else .ok (clamp01 (1 - cosineDistR vector1 vector2))

/-- `SimilarityCalculator.calculate_similarities` (lines 52-76): raises on an
empty reference, returns `[]` for no candidates, and otherwise scores each
candidate, turning any exception from `calculate_similarity` into a 0.0 score
(the `try`/`except` on lines 64-74). -/
noncomputable def calculate_similarities (resume_embedding : List ℚ)
    (job_embeddings : List (List ℚ)) : Except SimErr (List ℝ) :=
  if resume_embedding = [] then .error .emptyReference
  else if job_embeddings = [] then .ok []
  else .ok (job_embeddings.map fun j =>
    match calculate_similarity resume_embedding j with
    | .ok s => s
    | .error _ => 0)

/-! ### Ranker (src/similarity_calculator.py, get_top_recommendations) -/

/-- The sort key relation used on line 93 (`key=lambda x: x[1], reverse=True`):
`p` may come before `q` when `p`'s score is at least `q`'s. -/
def scoreGe {α : Type} (p q : α × ℚ) : Prop := q.2 ≤ p.2

instance {α : Type} : DecidableRel (α := α × ℚ) scoreGe := fun p q =>
  decidable_of_iff (q.2 ≤ p.2) Iff.rfl

instance {α : Type} : IsTotal (α × ℚ) scoreGe :=
  ⟨fun p q => le_total q.2 p.2⟩

instance {α : Type} : IsTrans (α × ℚ) scoreGe :=
  ⟨fun _ _ _ h1 h2 => le_trans h2 h1⟩

/-- Python's stable `list.sort(key=lambda x: x[1], reverse=True)`: the unique
stable descending-by-score ordering, realised by insertion sort. -/
def sortPairsDesc {α : Type} (l : List (α × ℚ)) : List (α × ℚ) :=
  l.insertionSort scoreGe

/-- Python slicing `l[:n]` for an arbitrary integer `n` (a negative `n` counts
from the end of the list). -/
def pySlice {α : Type} (n : ℤ) (l : List α) : List α :=
  if 0 ≤ n then l.take n.toNat else l.take ((l.length : ℤ) + n).toNat

/-- The `top_pairs` value of line 96: candidates zipped with scores, stably
sorted by descending score, then cut down by `[:top_n]`. -/
def topSelection {α : Type} (jobs : List α) (similarities : List ℚ) (top_n : ℤ) :
    List (α × ℚ) :=
  pySlice top_n (sortPairsDesc (jobs.zip similarities))

/-- Values stored in a job record (the dicts are heterogeneous; similarity
scores are stored as numbers). -/
inductive Val : Type where
  | str (s : String)
  | num (q : ℚ)
  deriving DecidableEq, Repr

/-- A Python dict: association list in insertion order with unique keys. -/
abbrev Dict : Type := List (String × Val)

/-- Python `d[k] = v`: replace the value in place if the key exists, else
append the new binding at the end. -/
def setKey (k : String) (v : Val) (d : Dict) : Dict :=
  if d.any (fun p => p.1 = k) then
    d.map fun p => if p.1 = k then (k, v) else p
  else d ++ [(k, v)]

/-- Python `d.get(k)`: first binding of `k`, if any. -/
def dictGet (d : Dict) (k : String) : Option Val :=
  (d.find? (fun p => p.1 = k)).map (fun p => p.2)

/-- Python `d.get(k, "")` where a string is expected. -/
def dictGetStr (d : Dict) (k : String) : String :=
  match dictGet d k with
  | some (.str s) => s
  | _ => ""

/-- Python `round` to an integer: round half to even. -/
def pyRoundHalfEven (x : ℚ) : ℤ :=
  let n := ⌊x⌋
  let f := x - n
  if f < 1 / 2 then n
  else if 1 / 2 < f then n + 1
  else if Even n then n else n + 1

/-- `round(x, 4)` on line 102: round to four decimal digits. -/
def pyRound4 (x : ℚ) : ℚ := (pyRoundHalfEven (x * 10 ^ 4) : ℚ) / 10 ^ 4

/-- `SimilarityCalculator.get_top_recommendations` (lines 79-107), over an
explicit heap of job dicts (`store`); `jobs` are references into the heap.
Each selected pair copies its job dict (`job.copy()`), sets the `similarity`
key on the copy, and collects the fresh record; the result is the grown heap
together with references to the new records, so that mutation (or its absence)
on the original records is observable. -/
def get_top_recommendations (store : List Dict) (jobs : List ℕ)
    (similarities : List ℚ) (top_n : ℤ) : Except SimErr (List Dict × List ℕ) :=
  if jobs.length ≠ similarities.length then
    .error (.lengthMismatch jobs.length similarities.length)
  else if jobs = [] ∨ similarities = [] then .ok (store, [])
  else
    let top := topSelection jobs similarities top_n
    let newDicts := top.map fun p =>
      setKey "similarity" (.num (pyRound4 p.2)) (store.getD p.1 [])
    .ok (store ++ newDicts, List.range' store.length newDicts.length)

/-! ### VectorProvider client and batch embedder (src/embedding_service.py) -/

/-- The truncation on lines 44-47 / 104-106: keep only the first 8000
whitespace-delimited tokens of an oversized text. -/
def truncate8000 (text : String) : String :=
  if (pyWords text).length > 8000 then
    String.intercalate " " ((pyWords text).take 8000)
  else text

/-- Lines 100-107: an empty or whitespace-only text is replaced by the fixed
placeholder `"empty text"`; any other text is truncated before submission. -/
def prepareBatchText (text : String) : String :=
  if text = "" ∨ pyStrip text = "" then "empty text" else truncate8000 text

/-- Errors surfaced by `get_embedding` (`ValueError`/`Exception` in the
source). `providerExhausted` carries the message of the last underlying
provider error and the attempt count named in the raised message. -/
inductive EmbedErr : Type where
  | invalidInput
  | providerExhausted (lastErr : String) (attempts : ℕ)
  | unexpected
  deriving DecidableEq, Repr

/-- Observable events of the `get_embedding` retry loop: one provider attempt
(with its 0-based index), or one backoff sleep of the given whole seconds. -/
inductive RetryEvent : Type where
  | tryCall (attempt : ℕ)
  | backoffWait (seconds : ℕ)
  deriving DecidableEq, Repr

/-- The retry loop of `get_embedding` (lines 50-78), from attempt index `k`.
`call j` is the outcome of the provider call on attempt `j` (the provider is
an external collaborator). On a failure before the last attempt the loop
sleeps `2 ^ attempt` seconds and retries; on the last attempt it raises the
"Failed to generate embedding after {max_retries} attempts" exception carrying
the last error. The fall-through `raise` on line 78 is `unexpected`. -/
def embedAttempts (call : ℕ → Except String (List ℚ)) (max_retries : ℕ) :
    ℕ → Except EmbedErr (List ℚ) × List RetryEvent
  | k =>
    if _h : k < max_retries then
      match call k with
      | .ok v => (.ok v, [.tryCall k])
      | .error e =>
        if k < max_retries - 1 then
          let r := embedAttempts call max_retries (k + 1)
          (r.1, .tryCall k :: .backoffWait (2 ^ k) :: r.2)
        else (.error (.providerExhausted e max_retries), [.tryCall k])
    else (.error .unexpected, [])
termination_by k => max_retries - k

/-- `OpenAIEmbeddingService.get_embedding` (lines 38-78): reject empty text,
truncate oversized text, then run the retry loop from attempt 0, returning the
result together with the trace of attempts and backoff sleeps. -/
def get_embedding (call : String → ℕ → Except String (List ℚ)) (text : String)
    (max_retries : ℕ) : Except EmbedErr (List ℚ) × List RetryEvent :=
  if text = "" ∨ pyStrip text = "" then (.error .invalidInput, [])
  else embedAttempts (call (truncate8000 text)) max_retries 0

/-- The chunking of the batch loop (line 89): contiguous groups of `bs` texts
(the final group may be shorter). For `bs = 0` Python's `range` would raise;
this model treats `bs = 0` like `bs = 1` and all claims assume `bs ≥ 1`. -/
def chunksOf {α : Type} (bs : ℕ) : List α → List (List α)
  | [] => []
  | t :: ts => (t :: ts.take (bs - 1)) :: chunksOf bs (ts.drop (bs - 1))
termination_by ts => ts.length
decreasing_by simp; omega

/-- The batch loop of `get_embeddings_batch` (lines 89-128). `call` is one
provider request on a prepared chunk: it returns the embeddings for the chunk,
or `none` when the request raises, in which case every item of the chunk is
recorded as `FAILED` (`None` in the source) and processing continues.
The second component records the payload of every provider call issued. -/
def embedBatchTraceGo (call : List String → Option (List (List ℚ))) (bs : ℕ) :
    List String → List (Option (List ℚ)) × List (List String)
  | [] => ([], [])
  | t :: ts =>
    let batch := t :: ts.take (bs - 1)
    let inp := batch.map prepareBatchText
    let r := embedBatchTraceGo call bs (ts.drop (bs - 1))
    ((match call inp with
      | some embs => embs.map some
      | none => List.replicate batch.length none) ++ r.1,
     inp :: r.2)
termination_by ts => ts.length
decreasing_by simp; omega

/-- `OpenAIEmbeddingService.get_embeddings_batch` (lines 81-130): early return
on an empty input, otherwise the chunked batch loop. -/
def get_embeddings_batch (call : List String → Option (List (List ℚ)))
    (bs : ℕ) (texts : List String) : List (Option (List ℚ)) :=
  if texts = [] then [] else (embedBatchTraceGo call bs texts).1

/-! ### Pipeline orchestrator (src/job_recommender.py) -/

/-- Stage failures of `JobRecommendationService.get_recommendations` (all
`ValueError`s in the source, plus propagated collaborator errors). -/
inductive PipeErr : Type where
  | resumeExtractFailed
  | noJobsFound
  | noJobsMatchFilters
  | embeddingFailed
  | embedOneFailed (e : EmbedErr)
  | similaritiesFailed (e : SimErr)
  | rankingFailed (e : SimErr)
  deriving DecidableEq, Repr

/-- The five injected services of `JobRecommendationService` plus the static
`JobFilter.filter_jobs` call, abstracted at their interface boundary
(`interfaces.py`), exactly as the class receives them. -/
structure Collaborators : Type where
  parse_file : String → Option String
  scrape_jobs : String → String → ℕ → List Dict
  filter_jobs : List Dict → List Dict
  clean_text : String → String
  embed_one : String → Except EmbedErr (List ℚ)
  embed_batch : List String → List (Option (List ℚ))
  calc_similarities : List ℚ → List (Option (List ℚ)) → Except SimErr (List ℚ)
  top_recommendations : List Dict → List ℚ → ℤ → Except SimErr (List Dict)

/-- `JobRecommendationService.get_recommendations` (lines 61-166): parse the
resume (`if not resume_text: raise`), scrape jobs (`if not jobs: raise`),
optionally filter (`if not jobs: raise`), embed the cleaned resume, embed all
cleaned job descriptions in batches, raise "Failed to generate embeddings"
when the batch result is empty or contains any `None` (line 123), then score
and rank. File/CSV output and prints are side effects outside the model. -/
def get_recommendations (c : Collaborators) (resume_path location keywords : String)
    (max_jobs : ℕ) (top_n : ℤ) (useFilters : Bool) : Except PipeErr (List Dict) :=
  match c.parse_file resume_path with
  | none => .error .resumeExtractFailed
  | some resume_text =>
    if resume_text = "" then .error .resumeExtractFailed
    else
      let jobs := c.scrape_jobs location keywords max_jobs
      if jobs = [] then .error .noJobsFound
      else
        let jobs2 := if useFilters then c.filter_jobs jobs else jobs
        if useFilters ∧ jobs2 = [] then .error .noJobsMatchFilters
        else
          match c.embed_one (c.clean_text resume_text) with
          | .error e => .error (.embedOneFailed e)
          | .ok resume_embedding =>
            let job_texts := jobs2.map fun j => c.clean_text (dictGetStr j "description")
            let job_embeddings := c.embed_batch job_texts
            if job_embeddings = [] ∨ none ∈ job_embeddings then .error .embeddingFailed
            else
              match c.calc_similarities resume_embedding job_embeddings with
              | .error e => .error (.similaritiesFailed e)
              | .ok sims =>
                match c.top_recommendations jobs2 sims top_n with
                | .error e => .error (.rankingFailed e)
                | .ok recs => .ok recs

/-- Recognise a provider-attempt event in a retry trace. -/
def isTryCall : RetryEvent → Bool
  | .tryCall _ => true
  | .backoffWait _ => false

/-- A concrete set of collaborators used to exhibit pipeline behaviour: two
scraped jobs whose batch embedding partially fails (the first vector succeeds,
the second is `FAILED`). -/
def demoCollab : Collaborators where
  parse_file := fun _ => some "resume text"
  scrape_jobs := fun _ _ _ => [[("description", .str "a")], [("description", .str "b")]]
  filter_jobs := fun js => js
  clean_text := fun t => t
  embed_one := fun _ => .ok [1]
  embed_batch := fun _ => [some [1], none]
  calc_similarities := fun _ _ => .ok [1, 0]
  top_recommendations := fun js _ _ => .ok js

/-! ### Lemmas about the similarity engine -/

theorem dotQ_self_eq (v : List ℚ) : dotQ v v = (v.map fun x => x * x).sum := by
  induction v with
  | nil => rfl
  | cons x xs ih => simp_all [dotQ, List.zipWith_cons_cons]

theorem dotQ_self_nonneg (v : List ℚ) : 0 ≤ dotQ v v := by
  rw [dotQ_self_eq]
  apply List.sum_nonneg
  intro x hx
  obtain ⟨y, _, rfl⟩ := List.mem_map.mp hx
  exact mul_self_nonneg y

theorem dotQ_self_pos (v : List ℚ) (h : ¬ allcloseZero v) : 0 < dotQ v v := by
  rw [allcloseZero] at h
  push_neg at h
  obtain ⟨x, hx, hgt⟩ := h
  have hxne : x ≠ 0 := by
    intro h0
    rw [h0] at hgt
    norm_num at hgt
  have hmem : x * x ∈ v.map fun y => y * y := List.mem_map_of_mem _ hx
  have hle : x * x ≤ (v.map fun y => y * y).sum := by
    apply List.single_le_sum _ _ hmem
    intro y hy
    obtain ⟨z, _, rfl⟩ := List.mem_map.mp hy
    exact mul_self_nonneg z
  have : 0 < x * x := mul_self_pos.mpr hxne
  rw [dotQ_self_eq]
  linarith

theorem dotQ_comm (a b : List ℚ) : dotQ a b = dotQ b a := by
  unfold dotQ
  congr 1
  induction a generalizing b with
  | nil => cases b <;> rfl
  | cons x xs ih =>
    cases b with
    | nil => rfl
    | cons y ys => simp [List.zipWith_cons_cons, mul_comm, ih ys]

theorem cosineDistR_comm (a b : List ℚ) : cosineDistR a b = cosineDistR b a := by
  unfold cosineDistR
  rw [dotQ_comm, mul_comm]

/-- Non-empty vectors of differing length make `calculate_similarity` raise
the dimension-mismatch error naming both lengths. -/
theorem sim_dim_error (a b : List ℚ) (h1 : a ≠ []) (h2 : b ≠ [])
    (h3 : a.length ≠ b.length) :
    calculate_similarity a b = .error (.dimensionMismatch a.length b.length) := by
  unfold calculate_similarity
  rw [if_neg (by simp [h1, h2]), if_pos h3]

/-! ### Lemmas about the ranker -/

theorem filter_score_orderedInsert {α : Type} (x : α × ℚ) (l : List (α × ℚ)) (q : ℚ) :
    ((l.orderedInsert scoreGe x).filter fun p => p.2 = q) =
      if x.2 = q then x :: l.filter (fun p => p.2 = q)
      else l.filter (fun p => p.2 = q) := by
  induction l with
  | nil =>
    by_cases hx : x.2 = q <;> simp [List.orderedInsert, hx]
  | cons y ys ih =>
    rw [List.orderedInsert]
    by_cases hxy : scoreGe x y
    · rw [if_pos hxy]
      by_cases hx : x.2 = q <;> by_cases hy : y.2 = q <;>
        simp [List.filter_cons, hx, hy]
    · rw [if_neg hxy]
      by_cases hx : x.2 = q
      · have hy : ¬ (y.2 = q) := by
          intro hyq
          exact hxy (by unfold scoreGe; rw [hyq, hx])
        simp [List.filter_cons, hx, hy, ih]
      · by_cases hy : y.2 = q <;> simp [List.filter_cons, hx, hy, ih]

/-- Stability of the ranking sort: for any score value, the entries carrying
that score appear in `sortPairsDesc l` exactly in their original order. -/
theorem filter_score_sortPairsDesc {α : Type} (l : List (α × ℚ)) (q : ℚ) :
    ((sortPairsDesc l).filter fun p => p.2 = q) = l.filter (fun p => p.2 = q) := by
  induction l with
  | nil => rfl
  | cons x xs ih =>
    rw [sortPairsDesc, List.insertionSort]
    rw [show List.insertionSort scoreGe xs = sortPairsDesc xs from rfl] at *
    rw [filter_score_orderedInsert]
    by_cases hx : x.2 = q <;> simp [List.filter_cons, hx, ih]

theorem sortPairsDesc_pairwise {α : Type} (l : List (α × ℚ)) :
    (sortPairsDesc l).Pairwise scoreGe :=
  List.sorted_insertionSort scoreGe l

theorem sortPairsDesc_perm {α : Type} (l : List (α × ℚ)) :
    List.Perm (sortPairsDesc l) l :=
  List.perm_insertionSort scoreGe l

theorem sortPairsDesc_length {α : Type} (l : List (α × ℚ)) :
    (sortPairsDesc l).length = l.length :=
  (sortPairsDesc_perm l).length_eq

theorem pySlice_eq_take {α : Type} (n : ℤ) (hn : 0 ≤ n) (l : List α) :
    pySlice n l = l.take n.toNat := by
  rw [pySlice, if_pos hn]

theorem pySlice_sublist {α : Type} (n : ℤ) (l : List α) :
    List.Sublist (pySlice n l) l := by
  rw [pySlice]
  split <;> exact List.take_sublist _ l

theorem find?_key_map_set {d : Dict} {k : String} {v : Val}
    (h : d.any (fun p => p.1 = k) = true) :
    ((d.map fun p => if p.1 = k then (k, v) else p).find? fun p => p.1 = k) =
      some (k, v) := by
  induction d with
  | nil => simp at h
  | cons p ps ih =>
    by_cases hp : p.1 = k
    · simp [List.find?, hp]
    · have hps : ps.any (fun p => p.1 = k) = true := by
        simp only [List.any_cons] at h
        simpa [hp] using h
      simp only [List.map_cons, if_neg hp]
      rw [List.find?_cons_of_neg _ (by simpa using hp)]
      exact ih hps

theorem find?_key_map_other {d : Dict} {k k' : String} {v : Val} (hne : k' ≠ k) :
    ((d.map fun p => if p.1 = k then (k, v) else p).find? fun p => p.1 = k') =
      d.find? fun p => p.1 = k' := by
  induction d with
  | nil => rfl
  | cons p ps ih =>
    by_cases hp : p.1 = k
    · simp only [List.map_cons, if_pos hp]
      rw [List.find?_cons_of_neg _ (by simpa using hne.symm),
        List.find?_cons_of_neg _ (by simpa [hp] using hne.symm), ih]
    · simp only [List.map_cons, if_neg hp]
      by_cases hp' : p.1 = k'
      · rw [List.find?_cons_of_pos _ (by simpa using hp'),
          List.find?_cons_of_pos _ (by simpa using hp')]
      · rw [List.find?_cons_of_neg _ (by simpa using hp'),
          List.find?_cons_of_neg _ (by simpa using hp'), ih]

/-- After `d[k] = v`, looking up `k` yields `v`. -/
theorem dictGet_setKey_same (d : Dict) (k : String) (v : Val) :
    dictGet (setKey k v d) k = some v := by
  unfold setKey dictGet
  by_cases h : d.any (fun p => p.1 = k) = true
  · rw [if_pos h, find?_key_map_set h]
    rfl
  · rw [if_neg h, List.find?_append]
    have hnone : (d.find? fun p => p.1 = k) = none := by
      rw [List.find?_eq_none]
      intro p hp hpk
      exact h (List.any_eq_true.mpr ⟨p, hp, hpk⟩)
    rw [hnone]
    simp [List.find?]

/-- After `d[k] = v`, looking up any other key is unchanged. -/
theorem dictGet_setKey_other (d : Dict) (k k' : String) (v : Val) (hne : k' ≠ k) :
    dictGet (setKey k v d) k' = dictGet d k' := by
  unfold setKey dictGet
  by_cases h : d.any (fun p => p.1 = k) = true
  · rw [if_pos h, find?_key_map_other hne]
  · rw [if_neg h, List.find?_append]
    cases hd : d.find? fun p => p.1 = k' with
    | some p => simp
    | none => simp [List.find?, hne.symm]

theorem range'_getD (s m j : ℕ) (h : j < m) : (List.range' s m).getD j 0 = s + j := by
  rw [List.getD_eq_getElem?_getD, List.getElem?_eq_getElem (by simpa using h)]
  simp [List.getElem_range'_1]

/-! ### Claim theorems: similarity engine -/

/-- Claim C3, counterexample: the non-empty vector `[0]` has self-similarity
0.0, not 1.0 (the numerical-zero branch on line 36 returns before the cosine
is computed). -/
theorem claim3_counterexample :
    ([0] : List ℚ) ≠ [] ∧ calculate_similarity [0] [0] = .ok 0 ∧
      calculate_similarity [0] [0] ≠ .ok 1 := by
  have hz : allcloseZero [(0 : ℚ)] := by
    intro x hx
    simp only [List.mem_singleton] at hx
    subst hx
    norm_num
  have h : calculate_similarity [0] [0] = .ok 0 := by
    unfold calculate_similarity
    rw [if_neg (by simp), if_neg (by simp), if_pos (Or.inl hz)]
  refine ⟨by simp, h, ?_⟩
  rw [h]
  intro hc
  have : (0 : ℝ) = 1 := by injection hc
  norm_num at this

/-- Claim C3 (amended): for every non-empty vector `v` that is not
numerically all-zero (some entry exceeds the `1e-8` absolute tolerance of
`np.allclose`), `calculate_similarity v v = 1.0`. -/
theorem claim3_thm (v : List ℚ) (h1 : v ≠ []) (h2 : ¬ allcloseZero v) :
    calculate_similarity v v = .ok 1 := by
  have hd : 0 < dotQ v v := dotQ_self_pos v h2
  have hdR : (0 : ℝ) < ((dotQ v v : ℚ) : ℝ) := by exact_mod_cast hd
  unfold calculate_similarity
  rw [if_neg (by simp [h1]), if_neg (by simp), if_neg (by simp [h2])]
  congr 1
  unfold clamp01 cosineDistR normR
  rw [Real.mul_self_sqrt hdR.le, div_self hdR.ne']
  norm_num

/-- Claim C3 witness: the amended theorem applied to the concrete vector
`[1, 2]`. -/
theorem claim3_witness :
    ([1, 2] : List ℚ) ≠ [] ∧ ¬ allcloseZero [1, 2] ∧
      calculate_similarity [1, 2] [1, 2] = .ok 1 := by
  have h2 : ¬ allcloseZero [(1 : ℚ), 2] := by
    intro h
    have := h 1 (by simp)
    norm_num at this
  exact ⟨by simp, h2, claim3_thm [1, 2] (by simp) h2⟩

/-- Claim C4, counterexample: `[]` and `[1]` have differing lengths, yet
`calculate_similarity` returns 0.0 instead of raising, because the
empty-vector branch on line 23 precedes the dimension check. -/
theorem claim4_counterexample :
    ([] : List ℚ).length ≠ ([1] : List ℚ).length ∧
      calculate_similarity [] [1] = .ok 0 ∧
      ∀ e, calculate_similarity ([] : List ℚ) [1] ≠ .error e := by
  have h : calculate_similarity ([] : List ℚ) [1] = .ok 0 := by
    unfold calculate_similarity
    rw [if_pos (Or.inl rfl)]
  exact ⟨by simp, h, fun e hc => by rw [h] at hc; exact Except.noConfusion hc⟩

/-- Claim C4 (amended): for every pair of NON-EMPTY vectors of differing
lengths, `calculate_similarity` raises `DimensionMismatch` naming both
lengths (empty inputs instead hit the 0.0 short circuit of line 23). -/
theorem claim4_thm (a b : List ℚ) (h1 : a ≠ []) (h2 : b ≠ [])
    (h3 : a.length ≠ b.length) :
    calculate_similarity a b = .error (.dimensionMismatch a.length b.length) :=
  sim_dim_error a b h1 h2 h3

/-- Claim C4 witness: the amended theorem applied to `[1]` and `[1, 2]`. -/
theorem claim4_witness :
    ([1] : List ℚ) ≠ [] ∧ ([1, 2] : List ℚ) ≠ [] ∧
      ([1] : List ℚ).length ≠ ([1, 2] : List ℚ).length ∧
      calculate_similarity [1] [1, 2] = .error (.dimensionMismatch 1 2) :=
  ⟨by simp, by simp, by simp, claim4_thm [1] [1, 2] (by simp) (by simp) (by simp)⟩

/-- Claim C2, counterexample: with the non-empty reference `[1]` and the
single mismatched candidate `[1, 2]`, `calculate_similarity` raises
`DimensionMismatch`, but `calculate_similarities` succeeds with score 0.0:
the `except` on lines 72-74 absorbs the error instead of escalating it. -/
theorem claim2_counterexample :
    calculate_similarity [1] [1, 2] = .error (.dimensionMismatch 1 2) ∧
      calculate_similarities [1] [[1, 2]] = .ok [0] := by
  have herr : calculate_similarity [(1 : ℚ)] [1, 2] =
      .error (.dimensionMismatch 1 2) := sim_dim_error [1] [1, 2] (by simp) (by simp) (by simp)
  refine ⟨herr, ?_⟩
  unfold calculate_similarities
  rw [if_neg (by simp), if_neg (by simp)]
  simp [herr]

/-- Claim C2 (amended): a `DimensionMismatch` arising inside
`calculate_similarities` is NOT fatal to the call: the mismatched candidate
is absorbed as score 0.0 and the call succeeds, scoring every candidate. -/
theorem claim2_thm (resume : List ℚ) (jobs : List (List ℚ)) (hne : resume ≠ [])
    (i : ℕ) (j : List ℚ) (hj : jobs[i]? = some j) (hjne : j ≠ [])
    (hlen : resume.length ≠ j.length) :
    calculate_similarity resume j = .error (.dimensionMismatch resume.length j.length) ∧
      ∃ scores, calculate_similarities resume jobs = .ok scores ∧
        scores.length = jobs.length ∧ scores[i]? = some 0 := by
  have herr := sim_dim_error resume j hne hjne hlen
  have hjobs : jobs ≠ [] := by
    intro h0
    rw [h0] at hj
    simp at hj
  have hcalc : calculate_similarities resume jobs =
      .ok (jobs.map fun j2 =>
        match calculate_similarity resume j2 with
        | .ok s => s
        | .error _ => 0) := by
    unfold calculate_similarities
    rw [if_neg hne, if_neg hjobs]
  refine ⟨herr, _, hcalc, by simp, ?_⟩
  rw [List.getElem?_map, hj]
  simp [herr]

/-- Claim C2 witness: the amended theorem applied to reference `[1]` and
candidate list `[[1, 2]]`. -/
theorem claim2_witness :
    ([1] : List ℚ) ≠ [] ∧ ([[1, 2]] : List (List ℚ))[0]? = some [1, 2] ∧
      (calculate_similarity [1] [1, 2] = .error (.dimensionMismatch 1 2) ∧
        ∃ scores, calculate_similarities [1] [[1, 2]] = .ok scores ∧
          scores.length = ([[1, 2]] : List (List ℚ)).length ∧ scores[0]? = some 0) :=
  ⟨by simp, by simp,
    claim2_thm [1] [[1, 2]] (by simp) 0 [1, 2] (by simp) (by simp) (by simp)⟩

/-- Claim C10 (confirmed): `calculate_similarity` is symmetric on
equal-length vectors. -/
theorem claim10_thm (a b : List ℚ) (h : a.length = b.length) :
    calculate_similarity a b = calculate_similarity b a := by
  unfold calculate_similarity
  by_cases he : a = [] ∨ b = []
  · rw [if_pos he, if_pos (Or.symm he)]
  · have he' : ¬ (b = [] ∨ a = []) := fun hx => he (Or.symm hx)
    rw [if_neg he, if_neg he']
    have hl : ¬ a.length ≠ b.length := fun hx => hx h
    have hl' : ¬ b.length ≠ a.length := fun hx => hx h.symm
    rw [if_neg hl, if_neg hl']
    by_cases hz : allcloseZero a ∨ allcloseZero b
    · rw [if_pos hz, if_pos (Or.symm hz)]
    · have hz' : ¬ (allcloseZero b ∨ allcloseZero a) := fun hx => hz (Or.symm hx)
      rw [if_neg hz, if_neg hz', cosineDistR_comm]

/-- Claim C10 witness: symmetry applied to the concrete equal-length pair
`[1, 2]` and `[3, 5]`. -/
theorem claim10_witness :
    ([1, 2] : List ℚ).length = ([3, 5] : List ℚ).length ∧
      calculate_similarity [1, 2] [3, 5] = calculate_similarity [3, 5] [1, 2] :=
  ⟨rfl, claim10_thm [1, 2] [3, 5] rfl⟩

/-! ### Claim theorems: ranker -/

/-- Claim C7, counterexample: with two candidates and `top_n = -1`, Python's
slice `[:top_n]` keeps `len - 1 = 1` entry, so the result has more than `n`
entries: "at most n entries" fails for a negative `n`. -/
theorem claim7_counterexample :
    get_top_recommendations [[], []] [0, 1] [0, 0] (-1) =
      .ok ([[], [], [("similarity", Val.num 0)]], [2]) ∧ ¬ ((1 : ℤ) ≤ -1) := by
  constructor
  · have hround : pyRound4 0 = 0 := by
      unfold pyRound4 pyRoundHalfEven
      norm_num
    have hsel : topSelection [0, 1] ([0, 0] : List ℚ) (-1) = [(0, 0)] := by
      unfold topSelection
      have hsort : sortPairsDesc [((0 : ℕ), (0 : ℚ)), (1, 0)] = [(0, 0), (1, 0)] := by
        decide
      have hzip : ([0, 1] : List ℕ).zip ([0, 0] : List ℚ) = [(0, 0), (1, 0)] := rfl
      rw [hzip, hsort]
      decide
    unfold get_top_recommendations
    rw [if_neg (by decide), if_neg (by decide)]
    simp only [hsel, List.map_cons, List.map_nil, hround]
    rfl
  · decide

/-- Claim C7 (amended, for `n ≥ 0`): `get_top_recommendations` succeeds on
equal-length inputs; the result has at most `n` entries; the selection is the
`n`-prefix of the stable descending sort of the candidate/score pairs, which
is sorted by descending score, preserves the original relative order among
entries of equal score, and is a permutation of the input pairing; and when
`n` is at least the number of candidates, every candidate is returned. -/
theorem claim7_thm (store : List Dict) (jobs : List ℕ) (sims : List ℚ) (n : ℤ)
    (hn : 0 ≤ n) (hlen : jobs.length = sims.length) :
    ∃ store2 recs, get_top_recommendations store jobs sims n = .ok (store2, recs) ∧
      (recs.length : ℤ) ≤ n ∧
      topSelection jobs sims n = (sortPairsDesc (jobs.zip sims)).take n.toNat ∧
      (topSelection jobs sims n).Pairwise scoreGe ∧
      (∀ q : ℚ, ((sortPairsDesc (jobs.zip sims)).filter fun p => p.2 = q) =
        (jobs.zip sims).filter (fun p => p.2 = q)) ∧
      List.Perm (sortPairsDesc (jobs.zip sims)) (jobs.zip sims) ∧
      ((jobs.length : ℤ) ≤ n → recs.length = jobs.length) := by
  have htop : topSelection jobs sims n = (sortPairsDesc (jobs.zip sims)).take n.toNat :=
    pySlice_eq_take n hn _
  have hpair : (topSelection jobs sims n).Pairwise scoreGe :=
    (sortPairsDesc_pairwise _).sublist (pySlice_sublist _ _)
  by_cases hj : jobs = []
  · subst hj
    have hs : sims = [] := List.length_eq_zero.mp hlen.symm
    subst hs
    refine ⟨store, [], ?_, by simpa using hn, htop, hpair,
      fun q => by simp [sortPairsDesc, List.insertionSort], by simp [sortPairsDesc], fun _ => rfl⟩
    unfold get_top_recommendations
    rw [if_neg (by simp), if_pos (by simp)]
  · have hs : sims ≠ [] := by
      intro h0
      rw [h0] at hlen
      simp at hlen
      exact hj hlen
    have hslen : (sortPairsDesc (jobs.zip sims)).length = jobs.length := by
      rw [sortPairsDesc_length, List.length_zip, hlen, min_self, ← hlen]
    have heq : get_top_recommendations store jobs sims n =
        .ok (store ++ (topSelection jobs sims n).map (fun p =>
            setKey "similarity" (.num (pyRound4 p.2)) (store.getD p.1 [])),
          List.range' store.length ((topSelection jobs sims n).map fun p =>
            setKey "similarity" (.num (pyRound4 p.2)) (store.getD p.1 [])).length) := by
      unfold get_top_recommendations
      rw [if_neg (fun hx => hx hlen), if_neg (by simp [hj, hs])]
    refine ⟨_, _, heq, ?_, htop, hpair, fun q => filter_score_sortPairsDesc _ q,
      sortPairsDesc_perm _, ?_⟩
    · rw [List.length_range', List.length_map, htop, List.length_take]
      have h1 : min n.toNat (sortPairsDesc (jobs.zip sims)).length ≤ n.toNat :=
        min_le_left _ _
      omega
    · intro hbig
      rw [List.length_range', List.length_map, htop, List.length_take, hslen]
      have : jobs.length ≤ n.toNat := by omega
      omega

/-- Claim C7 witness: the amended theorem applied to one candidate with
score 0 and `top_n = 3`. -/
theorem claim7_witness :
    (0 : ℤ) ≤ 3 ∧
      (∃ store2 recs, get_top_recommendations [[]] [0] [0] 3 = .ok (store2, recs) ∧
        (recs.length : ℤ) ≤ 3 ∧
        topSelection [0] ([0] : List ℚ) 3 =
          (sortPairsDesc (([0] : List ℕ).zip ([0] : List ℚ))).take (3 : ℤ).toNat ∧
        (topSelection [0] ([0] : List ℚ) 3).Pairwise scoreGe ∧
        (∀ q : ℚ, ((sortPairsDesc (([0] : List ℕ).zip ([0] : List ℚ))).filter
            fun p => p.2 = q) =
          (([0] : List ℕ).zip ([0] : List ℚ)).filter (fun p => p.2 = q)) ∧
        List.Perm (sortPairsDesc (([0] : List ℕ).zip ([0] : List ℚ)))
          (([0] : List ℕ).zip ([0] : List ℚ)) ∧
        ((([0] : List ℕ).length : ℤ) ≤ 3 → recs.length = ([0] : List ℕ).length)) :=
  ⟨by decide, claim7_thm [[]] [0] [0] 3 (by decide) rfl⟩

/-- Claim C9 (confirmed): on equal-length inputs `get_top_recommendations`
succeeds; no record of the input heap is modified; and every returned
recommendation is a fresh copy of some input candidate/score pair's record
with only the `similarity` key set to the score rounded to 4 decimal digits
(`similarity` reads back as the rounded score; every other key is unchanged
from the original record). -/
theorem claim9_thm (store : List Dict) (jobs : List ℕ) (sims : List ℚ) (n : ℤ)
    (hlen : jobs.length = sims.length) :
    ∃ store2 recs, get_top_recommendations store jobs sims n = .ok (store2, recs) ∧
      (∀ i, i < store.length → store2[i]? = store[i]?) ∧
      ∀ j, j < recs.length → ∃ r s, (r, s) ∈ jobs.zip sims ∧
        store2[recs.getD j 0]? =
          some (setKey "similarity" (.num (pyRound4 s)) (store.getD r [])) ∧
        dictGet (setKey "similarity" (.num (pyRound4 s)) (store.getD r [])) "similarity" =
          some (.num (pyRound4 s)) ∧
        ∀ k, k ≠ "similarity" →
          dictGet (setKey "similarity" (.num (pyRound4 s)) (store.getD r [])) k =
            dictGet (store.getD r []) k := by
  by_cases hj : jobs = []
  · refine ⟨store, [], ?_, fun i _ => rfl, fun j hjlt => by simp at hjlt⟩
    unfold get_top_recommendations
    rw [if_neg (fun hx => hx hlen), if_pos (Or.inl hj)]
  · have hs : sims ≠ [] := by
      intro h0
      rw [h0] at hlen
      simp at hlen
      exact hj hlen
    have heq : get_top_recommendations store jobs sims n =
        .ok (store ++ (topSelection jobs sims n).map (fun p =>
            setKey "similarity" (.num (pyRound4 p.2)) (store.getD p.1 [])),
          List.range' store.length ((topSelection jobs sims n).map fun p =>
            setKey "similarity" (.num (pyRound4 p.2)) (store.getD p.1 [])).length) := by
      unfold get_top_recommendations
      rw [if_neg (fun hx => hx hlen), if_neg (by simp [hj, hs])]
    refine ⟨_, _, heq, ?_, ?_⟩
    · intro i hi
      exact List.getElem?_append_left hi
    · intro j hjlt
      rw [List.length_range', List.length_map] at hjlt
      have hjtop : j < (topSelection jobs sims n).length := hjlt
      have hp : (topSelection jobs sims n)[j] ∈ topSelection jobs sims n :=
        List.getElem_mem hjtop
      have hmem : (topSelection jobs sims n)[j] ∈ jobs.zip sims :=
        (sortPairsDesc_perm (jobs.zip sims)).subset
          ((pySlice_sublist n (sortPairsDesc (jobs.zip sims))).subset hp)
      refine ⟨(topSelection jobs sims n)[j].1, (topSelection jobs sims n)[j].2,
        by simpa using hmem, ?_, dictGet_setKey_same _ _ _,
        fun k hk => dictGet_setKey_other _ _ _ _ hk⟩
      have hget : (List.range' store.length
          ((topSelection jobs sims n).map fun p =>
            setKey "similarity" (.num (pyRound4 p.2)) (store.getD p.1 [])).length).getD j 0 =
          store.length + j := by
        rw [List.length_map]
        exact range'_getD _ _ _ hjlt
      rw [hget, List.getElem?_append_right (by omega)]
      have hsub : store.length + j - store.length = j := by omega
      rw [hsub, List.getElem?_map, List.getElem?_eq_getElem hjtop]
      rfl

/-- Claim C9 witness: the theorem applied to a one-record heap, one candidate
and one score. -/
theorem claim9_witness :
    ([0] : List ℕ).length = ([1] : List ℚ).length ∧
      (∃ store2 recs,
        get_top_recommendations [[("title", Val.str "a")]] [0] [1] 10 = .ok (store2, recs) ∧
        (∀ i, i < ([[("title", Val.str "a")]] : List Dict).length →
          store2[i]? = ([[("title", Val.str "a")]] : List Dict)[i]?) ∧
        ∀ j, j < recs.length → ∃ r s, (r, s) ∈ ([0] : List ℕ).zip ([1] : List ℚ) ∧
          store2[recs.getD j 0]? =
            some (setKey "similarity" (.num (pyRound4 s))
              (([[("title", Val.str "a")]] : List Dict).getD r [])) ∧
          dictGet (setKey "similarity" (.num (pyRound4 s))
              (([[("title", Val.str "a")]] : List Dict).getD r [])) "similarity" =
            some (.num (pyRound4 s)) ∧
          ∀ k, k ≠ "similarity" →
            dictGet (setKey "similarity" (.num (pyRound4 s))
                (([[("title", Val.str "a")]] : List Dict).getD r [])) k =
              dictGet (([[("title", Val.str "a")]] : List Dict).getD r []) k) :=
  ⟨rfl, claim9_thm [[("title", Val.str "a")]] [0] [1] 10 rfl⟩


/-! ### Claim theorems: provider retry loop -/

theorem embedAttempts_allFail (call : ℕ → Except String (List ℚ)) (errs : ℕ → String)
    (m : ℕ) (hcall : ∀ j, j < m → call j = .error (errs j)) :
    ∀ d k, k < m → m - 1 - k = d →
      embedAttempts call m k =
        (.error (.providerExhausted (errs (m - 1)) m),
         ((List.range' k d).map fun j =>
           [RetryEvent.tryCall j, RetryEvent.backoffWait (2 ^ j)]).flatten ++
           [RetryEvent.tryCall (m - 1)]) := by
  intro d
  induction d with
  | zero =>
    intro k hk hd
    have hk1 : k = m - 1 := by omega
    rw [embedAttempts, dif_pos hk]
    simp only [hcall k hk]
    rw [if_neg (by omega)]
    simp [hk1]
  | succ d ih =>
    intro k hk hd
    rw [embedAttempts, dif_pos hk]
    simp only [hcall k hk]
    rw [if_pos (by omega)]
    rw [ih (k + 1) (by omega) (by omega)]
    simp [List.range'_succ]

theorem filter_try_join (s d : ℕ) :
    ((((List.range' s d).map fun j =>
        [RetryEvent.tryCall j, RetryEvent.backoffWait (2 ^ j)]).flatten).filter isTryCall) =
      (List.range' s d).map RetryEvent.tryCall := by
  induction d generalizing s with
  | zero => rfl
  | succ d ih =>
    rw [List.range'_succ]
    simp [List.filter_append, isTryCall, ih]

/-- Claim C8 (confirmed): when the text is valid and every provider attempt
fails, `get_embedding` performs exactly `max_retries` provider attempts
(indices 0 to `max_retries - 1`), sleeping `2 ^ attempt` seconds after each
failed attempt except the last, and surfaces the "failed after max_retries
attempts" error carrying the message of the last underlying error. -/
theorem claim8_thm (call : String → ℕ → Except String (List ℚ)) (errs : ℕ → String)
    (text : String) (hne : ¬ (text = "" ∨ pyStrip text = "")) (m : ℕ) (hm : 1 ≤ m)
    (hcall : ∀ j, j < m → call (truncate8000 text) j = .error (errs j)) :
    get_embedding call text m =
      (.error (.providerExhausted (errs (m - 1)) m),
       ((List.range' 0 (m - 1)).map fun j =>
         [RetryEvent.tryCall j, RetryEvent.backoffWait (2 ^ j)]).flatten ++
         [RetryEvent.tryCall (m - 1)]) ∧
      ((get_embedding call text m).2.filter isTryCall).length = m := by
  have heq := embedAttempts_allFail (call (truncate8000 text)) errs m hcall
    (m - 1) 0 (by omega) (by omega)
  have hmain : get_embedding call text m =
      (.error (.providerExhausted (errs (m - 1)) m),
       ((List.range' 0 (m - 1)).map fun j =>
         [RetryEvent.tryCall j, RetryEvent.backoffWait (2 ^ j)]).flatten ++
         [RetryEvent.tryCall (m - 1)]) := by
    rw [get_embedding, if_neg hne, heq]
  refine ⟨hmain, ?_⟩
  rw [hmain]
  show ((((List.range' 0 (m - 1)).map fun j =>
    [RetryEvent.tryCall j, RetryEvent.backoffWait (2 ^ j)]).flatten ++
    [RetryEvent.tryCall (m - 1)]).filter isTryCall).length = m
  rw [List.filter_append, filter_try_join]
  simp [isTryCall]
  omega

/-- Claim C8 witness: three attempts on a provider that always fails produce
the trace try 0, sleep 1s, try 1, sleep 2s, try 2 and the exhaustion error
carrying the last failure message. -/
theorem claim8_witness :
    (¬ (("hi" : String) = "" ∨ pyStrip "hi" = "")) ∧ 1 ≤ 3 ∧
      (get_embedding (fun _ _ => .error "boom") "hi" 3 =
        (.error (.providerExhausted "boom" 3),
         ((List.range' 0 2).map fun j =>
           [RetryEvent.tryCall j, RetryEvent.backoffWait (2 ^ j)]).flatten ++
           [RetryEvent.tryCall 2]) ∧
        ((get_embedding (fun _ _ => .error "boom") "hi" 3).2.filter isTryCall).length = 3) :=
  ⟨by decide, by decide,
    claim8_thm (fun _ _ => .error "boom") (fun _ => "boom") "hi" (by decide) 3 (by decide)
      (fun _ _ => rfl)⟩


/-! ### Claim theorems: batch embedder -/

theorem embedBatchTraceGo_length (call : List String → Option (List (List ℚ)))
    (bs : ℕ) (hlen : ∀ ts r, call ts = some r → r.length = ts.length) :
    ∀ (fuel : ℕ) (ts : List String), ts.length ≤ fuel →
      (embedBatchTraceGo call bs ts).1.length = ts.length := by
  intro fuel
  induction fuel with
  | zero =>
    intro ts h
    have hnil : ts = [] := by
      cases ts with
      | nil => rfl
      | cons t ts2 => simp at h
    subst hnil
    rw [embedBatchTraceGo]
    rfl
  | succ fuel ih =>
    intro ts h
    cases ts with
    | nil =>
      rw [embedBatchTraceGo]
      rfl
    | cons t ts2 =>
      rw [embedBatchTraceGo]
      have hrest := ih (ts2.drop (bs - 1)) (by simp at h ⊢; omega)
      cases hc : call ((t :: ts2.take (bs - 1)).map prepareBatchText) with
      | some embs =>
        have hel := hlen _ _ hc
        rw [List.length_map] at hel
        simp only [hc, List.length_append, List.length_map, List.length_cons,
          List.length_take, hrest, hel, List.length_drop]
        omega
      | none =>
        simp only [hc, List.length_append, List.length_replicate, List.length_cons,
          List.length_take, hrest, List.length_drop]
        omega

theorem embedBatchTraceGo_allFail (call : List String → Option (List (List ℚ)))
    (bs : ℕ) (hfail : ∀ ts, call ts = none) :
    ∀ (fuel : ℕ) (ts : List String), ts.length ≤ fuel →
      (embedBatchTraceGo call bs ts).1 = List.replicate ts.length none := by
  intro fuel
  induction fuel with
  | zero =>
    intro ts h
    have hnil : ts = [] := by
      cases ts with
      | nil => rfl
      | cons t ts2 => simp at h
    subst hnil
    rw [embedBatchTraceGo]
    rfl
  | succ fuel ih =>
    intro ts h
    cases ts with
    | nil =>
      rw [embedBatchTraceGo]
      rfl
    | cons t ts2 =>
      rw [embedBatchTraceGo]
      have hrest := ih (ts2.drop (bs - 1)) (by simp at h ⊢; omega)
      simp only [hfail, hrest]
      rw [← List.replicate_add]
      congr 1
      simp
      omega

theorem embedBatchTraceGo_pointwise (call : List String → Option (List (List ℚ)))
    (bs : ℕ) (hbs : 1 ≤ bs) (f : String → List ℚ)
    (hpt : ∀ ts, call ts = none ∨ call ts = some (ts.map f)) :
    ∀ (fuel : ℕ) (ts : List String), ts.length ≤ fuel → ∀ i, i < ts.length →
      (embedBatchTraceGo call bs ts).1[i]? = some none ∨
      (embedBatchTraceGo call bs ts).1[i]? =
        (ts[i]?).map fun t => some (f (prepareBatchText t)) := by
  intro fuel
  induction fuel with
  | zero =>
    intro ts h i hi
    have hnil : ts = [] := by
      cases ts with
      | nil => rfl
      | cons t ts2 => simp at h
    subst hnil
    simp at hi
  | succ fuel ih =>
    intro ts h i hi
    cases ts with
    | nil => simp at hi
    | cons t ts2 =>
      have hbatch : t :: ts2.take (bs - 1) = (t :: ts2).take bs := by
        cases bs with
        | zero => omega
        | succ bs2 => simp
      have hts_split : ∀ jgt : ¬ i < (t :: ts2.take (bs - 1)).length,
          (t :: ts2)[i]? = (ts2.drop (bs - 1))[i - (t :: ts2.take (bs - 1)).length]? := by
        intro jgt
        conv =>
          lhs
          rw [show (t :: ts2) = (t :: ts2).take bs ++ (t :: ts2).drop bs from
            (List.take_append_drop bs (t :: ts2)).symm]
        rw [List.getElem?_append_right (by rw [← hbatch]; omega)]
        rw [← hbatch]
        congr 1
        cases bs with
        | zero => omega
        | succ bs2 => simp
      rw [embedBatchTraceGo]
      rcases hpt ((t :: ts2.take (bs - 1)).map prepareBatchText) with hc | hc
      · simp only [hc]
        by_cases hin : i < (t :: ts2.take (bs - 1)).length
        · left
          rw [List.getElem?_append_left (by simpa using hin)]
          rw [List.getElem?_replicate]
          simp only [List.length_map] at hin ⊢
          rw [if_pos hin]
        · push_neg at hin
          rw [List.getElem?_append_right (by simpa using hin)]
          have hrec := ih (ts2.drop (bs - 1)) (by simp at h ⊢; omega)
            (i - (t :: ts2.take (bs - 1)).length)
            (by simp at hi hin ⊢; omega)
          rw [List.length_replicate]
          rw [hts_split (by omega)]
          exact hrec
      · simp only [hc]
        by_cases hin : i < (t :: ts2.take (bs - 1)).length
        · right
          rw [List.getElem?_append_left (by simpa using hin)]
          rw [List.getElem?_map, List.getElem?_map, List.getElem?_map]
          have hts : (t :: ts2)[i]? = (t :: ts2.take (bs - 1))[i]? := by
            conv =>
              lhs
              rw [show (t :: ts2) = (t :: ts2).take bs ++ (t :: ts2).drop bs from
                (List.take_append_drop bs (t :: ts2)).symm]
            rw [← hbatch]
            rw [List.getElem?_append_left hin]
          rw [hts]
          cases hx : (t :: ts2.take (bs - 1))[i]? with
          | none => rfl
          | some x => rfl
        · push_neg at hin
          rw [List.getElem?_append_right (by simpa using hin)]
          have hrec := ih (ts2.drop (bs - 1)) (by simp at h ⊢; omega)
            (i - (t :: ts2.take (bs - 1)).length)
            (by simp at hi hin ⊢; omega)
          simp only [List.length_map]
          rw [hts_split (by omega)]
          exact hrec


/-- Claim C5 (confirmed): for any chunk size ≥ 1 and a provider that returns
one embedding per submitted item when it succeeds, `get_embeddings_batch`
(1) preserves the input length, (2) is index-aligned: entry `i` is either
`FAILED` or the provider's embedding of the prepared text `i`, and (3) when
every provider call fails, returns all-`FAILED` of the input length. -/
theorem claim5_thm (call : List String → Option (List (List ℚ))) (bs : ℕ)
    (hbs : 1 ≤ bs) (texts : List String) :
    ((∀ ts r, call ts = some r → r.length = ts.length) →
      (get_embeddings_batch call bs texts).length = texts.length) ∧
    (∀ f : String → List ℚ, (∀ ts, call ts = none ∨ call ts = some (ts.map f)) →
      ∀ i, i < texts.length →
        (get_embeddings_batch call bs texts)[i]? = some none ∨
        (get_embeddings_batch call bs texts)[i]? =
          (texts[i]?).map fun t => some (f (prepareBatchText t))) ∧
    ((∀ ts, call ts = none) →
      get_embeddings_batch call bs texts = List.replicate texts.length none) := by
  by_cases hT : texts = []
  · subst hT
    exact ⟨fun _ => rfl, fun f hf i hi => by simp at hi, fun _ => rfl⟩
  · have hgo : get_embeddings_batch call bs texts = (embedBatchTraceGo call bs texts).1 := by
      unfold get_embeddings_batch
      rw [if_neg hT]
    refine ⟨fun hlen => ?_, fun f hf i hi => ?_, fun hfail => ?_⟩
    · rw [hgo]
      exact embedBatchTraceGo_length call bs hlen texts.length texts le_rfl
    · rw [hgo]
      exact embedBatchTraceGo_pointwise call bs hbs f hf texts.length texts le_rfl i hi
    · rw [hgo]
      exact embedBatchTraceGo_allFail call bs hfail texts.length texts le_rfl

/-- Claim C5 witness: the theorem applied to chunk size 2, three texts and
the provider that always fails. -/
theorem claim5_witness :
    1 ≤ 2 ∧
      (((∀ ts r, (fun _ : List String => (none : Option (List (List ℚ)))) ts = some r →
          r.length = ts.length) →
        (get_embeddings_batch (fun _ => none) 2 ["a", "b", "c"]).length =
          (["a", "b", "c"] : List String).length) ∧
      (∀ f : String → List ℚ,
        (∀ ts, (fun _ : List String => (none : Option (List (List ℚ)))) ts = none ∨
          (fun _ : List String => (none : Option (List (List ℚ)))) ts = some (ts.map f)) →
        ∀ i, i < (["a", "b", "c"] : List String).length →
          (get_embeddings_batch (fun _ => none) 2 ["a", "b", "c"])[i]? = some none ∨
          (get_embeddings_batch (fun _ => none) 2 ["a", "b", "c"])[i]? =
            ((["a", "b", "c"] : List String)[i]?).map
              fun t => some (f (prepareBatchText t))) ∧
      ((∀ ts, (fun _ : List String => (none : Option (List (List ℚ)))) ts = none) →
        get_embeddings_batch (fun _ => none) 2 ["a", "b", "c"] =
          List.replicate (["a", "b", "c"] : List String).length none)) :=
  ⟨by decide, claim5_thm (fun _ => none) 2 (by decide) ["a", "b", "c"]⟩

theorem chunksOf_flatten {α : Type} (bs : ℕ) :
    ∀ (fuel : ℕ) (ts : List α), ts.length ≤ fuel → (chunksOf bs ts).flatten = ts := by
  intro fuel
  induction fuel with
  | zero =>
    intro ts h
    have hnil : ts = [] := by
      cases ts with
      | nil => rfl
      | cons t ts2 => simp at h
    subst hnil
    rw [chunksOf]
    rfl
  | succ fuel ih =>
    intro ts h
    cases ts with
    | nil =>
      rw [chunksOf]
      rfl
    | cons t ts2 =>
      rw [chunksOf]
      rw [List.flatten_cons, ih (ts2.drop (bs - 1)) (by simp at h ⊢; omega)]
      simp [List.take_append_drop]

theorem chunksOf_sizes {α : Type} (bs : ℕ) (hbs : 1 ≤ bs) :
    ∀ (fuel : ℕ) (ts : List α), ts.length ≤ fuel →
      ∀ c ∈ chunksOf bs ts, c ≠ [] ∧ c.length ≤ bs := by
  intro fuel
  induction fuel with
  | zero =>
    intro ts h c hc
    have hnil : ts = [] := by
      cases ts with
      | nil => rfl
      | cons t ts2 => simp at h
    subst hnil
    rw [chunksOf] at hc
    simp at hc
  | succ fuel ih =>
    intro ts h c hc
    cases ts with
    | nil =>
      rw [chunksOf] at hc
      simp at hc
    | cons t ts2 =>
      rw [chunksOf] at hc
      rcases List.mem_cons.mp hc with rfl | hmem
      · refine ⟨by simp, ?_⟩
        simp only [List.length_cons, List.length_take]
        omega
      · exact ih (ts2.drop (bs - 1)) (by simp at h ⊢; omega) c hmem

theorem embedBatchTraceGo_calls (call : List String → Option (List (List ℚ))) (bs : ℕ) :
    ∀ (fuel : ℕ) (ts : List String), ts.length ≤ fuel →
      (embedBatchTraceGo call bs ts).2 =
        (chunksOf bs ts).map (fun c => c.map prepareBatchText) := by
  intro fuel
  induction fuel with
  | zero =>
    intro ts h
    have hnil : ts = [] := by
      cases ts with
      | nil => rfl
      | cons t ts2 => simp at h
    subst hnil
    rw [embedBatchTraceGo, chunksOf]
    rfl
  | succ fuel ih =>
    intro ts h
    cases ts with
    | nil =>
      rw [embedBatchTraceGo, chunksOf]
      rfl
    | cons t ts2 =>
      rw [embedBatchTraceGo, chunksOf]
      simp only [List.map_cons]
      rw [← ih (ts2.drop (bs - 1)) (by simp at h ⊢; omega)]

/-- The 45-item chunking scenario: chunk size 20 yields chunks of sizes
20, 20 and 5. -/
theorem chunksOf_45_20 :
    chunksOf 20 (List.replicate 45 "t") =
      ["t" :: List.replicate 19 "t", "t" :: List.replicate 19 "t",
        "t" :: List.replicate 4 "t"] := by
  have step1 : chunksOf 20 (List.replicate 45 "t") =
      ("t" :: List.replicate 19 "t") :: chunksOf 20 (List.replicate 25 "t") := by
    rw [show List.replicate 45 "t" = "t" :: List.replicate 44 "t" from rfl, chunksOf,
      List.take_replicate, List.drop_replicate]
    norm_num
  have step2 : chunksOf 20 (List.replicate 25 "t") =
      ("t" :: List.replicate 19 "t") :: chunksOf 20 (List.replicate 5 "t") := by
    rw [show List.replicate 25 "t" = "t" :: List.replicate 24 "t" from rfl, chunksOf,
      List.take_replicate, List.drop_replicate]
    norm_num
  have step3 : chunksOf 20 (List.replicate 5 "t") = ["t" :: List.replicate 4 "t"] := by
    rw [show List.replicate 5 "t" = "t" :: List.replicate 4 "t" from rfl, chunksOf,
      List.take_replicate, List.drop_replicate]
    norm_num
    rw [chunksOf]
  rw [step1, step2, step3]

/-- Claim C6 (confirmed): the batch embedder partitions its input into
contiguous groups of `chunkSize` (their concatenation is the input, every
group is non-empty with at most `chunkSize` items) and issues exactly one
provider call per group (the recorded calls are exactly the prepared groups);
in particular 45 texts with chunk size 20 produce exactly 3 provider calls of
sizes 20, 20 and 5, and a 45-element output. -/
theorem claim6_thm (call : List String → Option (List (List ℚ)))
    (hlen : ∀ ts r, call ts = some r → r.length = ts.length)
    (texts : List String) (bs : ℕ) (hbs : 1 ≤ bs) :
    (chunksOf bs texts).flatten = texts ∧
    (∀ c ∈ chunksOf bs texts, c ≠ [] ∧ c.length ≤ bs) ∧
    (embedBatchTraceGo call bs texts).2 =
      (chunksOf bs texts).map (fun c => c.map prepareBatchText) ∧
    (embedBatchTraceGo call 20 (List.replicate 45 "t")).2.length = 3 ∧
    (embedBatchTraceGo call 20 (List.replicate 45 "t")).2.map List.length = [20, 20, 5] ∧
    (get_embeddings_batch call 20 (List.replicate 45 "t")).length = 45 := by
  have hcalls := embedBatchTraceGo_calls call 20 45 (List.replicate 45 "t") (by simp)
  refine ⟨chunksOf_flatten bs texts.length texts le_rfl,
    chunksOf_sizes bs hbs texts.length texts le_rfl,
    embedBatchTraceGo_calls call bs texts.length texts le_rfl, ?_, ?_, ?_⟩
  · rw [hcalls, chunksOf_45_20]
    rfl
  · rw [hcalls, chunksOf_45_20]
    simp
  · have : get_embeddings_batch call 20 (List.replicate 45 "t") =
        (embedBatchTraceGo call 20 (List.replicate 45 "t")).1 := by
      unfold get_embeddings_batch
      rw [if_neg (by simp)]
    rw [this, embedBatchTraceGo_length call 20 hlen 45 (List.replicate 45 "t") (by simp)]
    simp

/-- Claim C6 witness: the theorem applied to the always-failing provider,
one text and chunk size 1. -/
theorem claim6_witness :
    (∀ ts r, (fun _ : List String => (none : Option (List (List ℚ)))) ts = some r →
      r.length = ts.length) ∧ 1 ≤ 1 ∧
      ((chunksOf 1 ["a"]).flatten = ["a"] ∧
      (∀ c ∈ chunksOf 1 ["a"], c ≠ [] ∧ c.length ≤ 1) ∧
      (embedBatchTraceGo (fun _ => none) 1 ["a"]).2 =
        (chunksOf 1 ["a"]).map (fun c => c.map prepareBatchText) ∧
      (embedBatchTraceGo (fun _ => none) 20 (List.replicate 45 "t")).2.length = 3 ∧
      (embedBatchTraceGo (fun _ => none) 20 (List.replicate 45 "t")).2.map
        List.length = [20, 20, 5] ∧
      (get_embeddings_batch (fun _ => none) 20 (List.replicate 45 "t")).length = 45) :=
  ⟨fun _ r h => Option.noConfusion h, by decide,
    claim6_thm (fun _ => none) (fun _ r h => Option.noConfusion h) ["a"] 1 (by decide)⟩


/-! ### Claim theorems: pipeline orchestrator -/

/-- Claim C1, counterexample: with a batch result in which only the second
vector is `FAILED` (the first succeeded), `get_recommendations` still raises
"Failed to generate embeddings": the check `None in job_embeddings` on
line 123 aborts on ANY failed entry, not only on a total outage. -/
theorem claim1_counterexample :
    demoCollab.embed_batch ["a", "b"] = [some [1], none] ∧
      some [(1 : ℚ)] ∈ demoCollab.embed_batch ["a", "b"] ∧
      get_recommendations demoCollab "r.pdf" "loc" "kw" 50 10 false =
        .error .embeddingFailed :=
  ⟨rfl, by simp [demoCollab], rfl⟩

/-- Claim C1 (amended): once the earlier stages succeed,
`get_recommendations` fails with `EmbeddingFailed` exactly when the Batch
Embedder's result is empty or contains AT LEAST ONE `FAILED` vector; it
proceeds to similarity and ranking only when every vector succeeded (in which
case it returns the ranking's output). -/
theorem claim1_thm (c : Collaborators) (resume_path location keywords : String)
    (max_jobs : ℕ) (top_n : ℤ) (useFilters : Bool)
    (rt : String) (hparse : c.parse_file resume_path = some rt) (hrt : rt ≠ "")
    (jobs2 : List Dict)
    (hjobs2 : jobs2 = if useFilters then
        c.filter_jobs (c.scrape_jobs location keywords max_jobs)
      else c.scrape_jobs location keywords max_jobs)
    (hscrape : c.scrape_jobs location keywords max_jobs ≠ [])
    (hfilt : jobs2 ≠ [])
    (remb : List ℚ) (hemb : c.embed_one (c.clean_text rt) = .ok remb)
    (embs : List (Option (List ℚ)))
    (hembs : embs =
      c.embed_batch (jobs2.map fun j => c.clean_text (dictGetStr j "description"))) :
    (get_recommendations c resume_path location keywords max_jobs top_n useFilters =
        .error .embeddingFailed ↔ embs = [] ∨ none ∈ embs) ∧
    (∀ sims recs, ¬ (embs = [] ∨ none ∈ embs) →
      c.calc_similarities remb embs = .ok sims →
      c.top_recommendations jobs2 sims top_n = .ok recs →
      get_recommendations c resume_path location keywords max_jobs top_n useFilters =
        .ok recs) := by
  have hmain : get_recommendations c resume_path location keywords max_jobs top_n useFilters =
      (if embs = [] ∨ none ∈ embs then .error .embeddingFailed
       else match c.calc_similarities remb embs with
         | .error e => .error (.similaritiesFailed e)
         | .ok sims =>
           match c.top_recommendations jobs2 sims top_n with
           | .error e => .error (.rankingFailed e)
           | .ok recs => .ok recs) := by
    unfold get_recommendations
    simp only [hparse]
    rw [if_neg hrt, if_neg hscrape]
    rw [show (if useFilters then c.filter_jobs (c.scrape_jobs location keywords max_jobs)
      else c.scrape_jobs location keywords max_jobs) = jobs2 from hjobs2.symm]
    rw [if_neg (fun hx => hfilt hx.2)]
    simp only [hemb]
    rw [show c.embed_batch (jobs2.map fun j => c.clean_text (dictGetStr j "description")) =
      embs from hembs.symm]
  constructor
  · rw [hmain]
    by_cases hcond : embs = [] ∨ none ∈ embs
    · rw [if_pos hcond]
      simp [hcond]
    · rw [if_neg hcond]
      constructor
      · intro heq
        exfalso
        cases hs : c.calc_similarities remb embs with
        | error e =>
          simp only [hs] at heq
          exact PipeErr.noConfusion (Except.error.inj heq)
        | ok sims =>
          simp only [hs] at heq
          cases hr : c.top_recommendations jobs2 sims top_n with
          | error e =>
            simp only [hr] at heq
            exact PipeErr.noConfusion (Except.error.inj heq)
          | ok recs =>
            simp only [hr] at heq
            exact Except.noConfusion heq
      · intro h
        exact absurd h hcond
  · intro sims recs hnc hsims hrecs
    rw [hmain, if_neg hnc]
    simp only [hsims, hrecs]

/-- Claim C1 witness: the amended theorem applied to the concrete
collaborators whose batch result is `[some [1], none]` (one success, one
failure): the iff instantiates to a true biconditional and the run indeed
fails with `EmbeddingFailed`. -/
theorem claim1_witness :
    demoCollab.parse_file "r.pdf" = some "resume text" ∧
      ("resume text" : String) ≠ "" ∧
      ((get_recommendations demoCollab "r.pdf" "loc" "kw" 50 10 false =
          .error .embeddingFailed ↔
        ([some [1], none] : List (Option (List ℚ))) = [] ∨
          none ∈ ([some [1], none] : List (Option (List ℚ)))) ∧
      (∀ sims recs,
        ¬ (([some [1], none] : List (Option (List ℚ))) = [] ∨
          none ∈ ([some [1], none] : List (Option (List ℚ)))) →
        demoCollab.calc_similarities [1] [some [1], none] = .ok sims →
        demoCollab.top_recommendations
          [[("description", .str "a")], [("description", .str "b")]] sims 10 = .ok recs →
        get_recommendations demoCollab "r.pdf" "loc" "kw" 50 10 false = .ok recs)) :=
  ⟨rfl, by decide,
    claim1_thm demoCollab "r.pdf" "loc" "kw" 50 10 false "resume text" rfl (by decide)
      [[("description", .str "a")], [("description", .str "b")]] rfl (by decide) (by decide)
      [1] rfl [some [1], none] rfl⟩
